import Mathlib

/-!
Verification development for the Multiplayer Drawing App server
(`src/server/server.js`) and its clients.

The server keeps an in-memory table `boards : { roomId: [strokes...] }`,
loads a room from the Firestore `rooms` collection on first reference,
appends strokes on `draw` events, and periodically writes rooms back.
Two live revisions of the server appear in the source: an early one that
saves every resident room each cycle, and a later "dirty-set" revision
that tracks modified rooms in a `dirtyRooms` set and saves only those.
Both are embedded below; JavaScript objects keyed by room id are embedded
as association lists over `String`, JS `Set` as a duplicate-free list kept
in insertion order, and the Firestore adapter as an explicit result value
passed to the handler.
-/

namespace DrawingApp

/-- A stored stroke: one line segment with endpoints, a color token
(the color may be the `__eraser__` sentinel) and a width, exactly the
object `{ x0, y0, x1, y1, color, size }` the server pushes onto
`boards[roomId]`. -/
structure Stroke where
  x0 : Int
  y0 : Int
  x1 : Int
  y1 : Int
  color : String
  size : Int
deriving Repr, DecidableEq

/-- Payload of an inbound `draw` event: the stroke fields plus the target
room id, as destructured by `socket.on("draw", ...)`. -/
structure DrawData where
  roomId : String
  x0 : Int
  y0 : Int
  x1 : Int
  y1 : Int
  color : String
  size : Int
deriving Repr, DecidableEq

/-- The stroke object the server stores and broadcasts for a `draw`
payload (`{ x0, y0, x1, y1, color, size }`, the room id dropped). -/
def DrawData.stroke (d : DrawData) : Stroke :=
  ⟨d.x0, d.y0, d.x1, d.y1, d.color, d.size⟩

/-- The `draw` payload that carries a given stroke to a given room. -/
def DrawData.ofStroke (r : String) (st : Stroke) : DrawData :=
  ⟨r, st.x0, st.y0, st.x1, st.y1, st.color, st.size⟩

/-- A Firestore `rooms/{roomId}` document: `{ strokes, updatedAt }`.
The `strokes` field is optional so that `docSnap.data().strokes || []`
(an absent field hydrates as the empty list; a present array, even empty,
is truthy and hydrates as itself) can be embedded faithfully. -/
structure RoomDoc where
  updatedAt : Nat
  strokes : Option (List Stroke)
deriving Repr, DecidableEq

/-- `docSnap.data().strokes || []`: a missing `strokes` field gives `[]`;
a present array (arrays are truthy in JS, even when empty) gives itself. -/
def RoomDoc.hydrate (d : RoomDoc) : List Stroke :=
  d.strokes.getD []

/-- Result of `docRef.get()` as seen by `loadRoomFromFirestore`: a
document exists, the document is absent, or the adapter threw. -/
inductive LoadResult where
  | found (doc : RoomDoc)
  | absent
  | error
deriving Repr, DecidableEq

/-! ### Association lists (JS objects keyed by string) -/

/-- Lookup in a JS-object-style association list. -/
def alGet {β : Type} (k : String) : List (String × β) → Option β
  | [] => none
  | (k', v) :: t => if k' = k then some v else alGet k t

/-- Assignment `obj[k] = v` on a JS-object-style association list:
update in place when the key exists, append otherwise. -/
def alSet {β : Type} (k : String) (v : β) : List (String × β) → List (String × β)
  | [] => [(k, v)]
  | (k', w) :: t => if k' = k then (k, v) :: t else (k', w) :: alSet k v t

/-- `delete obj[k]`: drop every entry with the given key. -/
def alRemove {β : Type} (k : String) (l : List (String × β)) : List (String × β) :=
  l.filter (fun p => p.1 ≠ k)

/-- `dirtyRooms.add(r)` on a JS `Set` kept as an insertion-ordered
duplicate-free list. -/
def addDirty (r : String) (d : List String) : List String :=
  if r ∈ d then d else d ++ [r]

/-! ### Server state -/

/-- The server's mutable globals: the resident board table `boards`, the
`dirtyRooms` set of the dirty-set revision (unused by the early revision),
and the Firestore `rooms` collection the adapter reads and writes. -/
structure ServerState where
  boards : List (String × List Stroke)
  dirty : List String
  store : List (String × RoomDoc)
deriving Repr, DecidableEq

/-- Fresh process: no resident rooms, empty dirty set, given store. -/
def coldState (store : List (String × RoomDoc)) : ServerState :=
  { boards := [], dirty := [], store := store }

/-- Outbound transport effects the embedded handlers produce. -/
inductive Output where
  /-- `socket.emit("init-board", boards[roomId])` to the joining socket. -/
  | initBoard (target : String) (strokes : List Stroke)
  /-- `socket.to(roomId).emit("draw", {...})`: room-wide broadcast that
  skips the sending socket. -/
  | drawBroadcast (roomId : String) (sender : String) (st : Stroke)
deriving Repr, DecidableEq

/-! ### Early server revision (`server.js` lines 44-133) -/

/-- `loadRoomFromFirestore` (early revision, lines 44-59): a found
document hydrates `boards[roomId]` via `.strokes || []`; an absent
document and an adapter error both leave the room resident and empty. -/
def loadRoomFromFirestore (r : String) (res : LoadResult) (s : ServerState) : ServerState :=
  match res with
  | .found doc => { s with boards := alSet r doc.hydrate s.boards }
  | .absent => { s with boards := alSet r [] s.boards }
  | .error => { s with boards := alSet r [] s.boards }

/-- `socket.on("join-room")` (lines 108-117): `socket.join` is transport
bookkeeping; then `if (!boards[roomId]) await loadRoomFromFirestore(roomId)`
(an array, even empty, is truthy, so a resident room skips the load) and
`socket.emit("init-board", boards[roomId])`. -/
def onJoinRoom (sender r : String) (res : LoadResult) (s : ServerState) :
    ServerState × List Output :=
  match alGet r s.boards with
  | some l => (s, [.initBoard sender l])
  | none =>
      let s' := loadRoomFromFirestore r res s
      (s', [.initBoard sender ((alGet r s'.boards).getD [])])

/-- `socket.on("draw")` (lines 120-129): create the room empty when
unknown, push the stroke, broadcast it to the room except the sender. -/
def onDraw (sender : String) (d : DrawData) (s : ServerState) :
    ServerState × List Output :=
  let cur := (alGet d.roomId s.boards).getD []
  ({ s with boards := alSet d.roomId (cur ++ [d.stroke]) s.boards },
   [.drawBroadcast d.roomId sender d.stroke])

/-- Inbound events handled by the early server revision. -/
inductive Event where
  | join (sender roomId : String) (res : LoadResult)
  | draw (sender : String) (d : DrawData)
deriving Repr, DecidableEq

/-- Dispatch of one inbound event (early revision). -/
def step : Event → ServerState → ServerState × List Output
  | .join c r res, s => onJoinRoom c r res s
  | .draw c d, s => onDraw c d s

/-- Run a sequence of inbound events, accumulating outputs in order. -/
def run : List Event → ServerState → ServerState × List Output
  | [], s => (s, [])
  | e :: t, s =>
      ((run t (step e s).1).1, (step e s).2 ++ (run t (step e s).1).2)

/-- `saveAllRoomsToFirestore` (early revision, lines 64-80): one
`doc(roomId).set({ updatedAt, strokes })` per resident room. -/
def writesOf (now : Nat) (boards : List (String × List Stroke)) :
    List (String × RoomDoc) :=
  boards.map (fun p => (p.1, { updatedAt := now, strokes := some p.2 }))

/-- Apply a batch of `doc.set` writes to the store, in order. -/
def applyWrites : List (String × RoomDoc) → List (String × RoomDoc) → List (String × RoomDoc)
  | [], st => st
  | (r, d) :: t, st => applyWrites t (alSet r d st)

/-- `saveAllRoomsToFirestore` (early revision): write every resident
room's strokes with a fresh timestamp. -/
def saveAllRoomsToFirestore (now : Nat) (s : ServerState) : ServerState :=
  { s with store := applyWrites (writesOf now s.boards) s.store }

/-- What `docRef.get()` returns against a given store state. -/
def storeGet (r : String) (store : List (String × RoomDoc)) : LoadResult :=
  match alGet r store with
  | some d => .found d
  | none => .absent

/-! ### Dirty-set server revision (`server.js` lines 266-382)

The later revision adds `const dirtyRooms = new Set()`: the load and draw
handlers mark rooms dirty, and `saveAllRoomsToFirestore` writes only the
dirty rooms, clearing the set on success. The flush is not atomic: the
write batch is built synchronously when the cycle starts, the process
then awaits `Promise.all`, and other handlers may run while the writes
are in flight, so the cycle is embedded as an explicit start step, an
arbitrary interleaving, and an end step. -/

/-- `loadRoomFromFirestore` (dirty-set revision, lines 272-292): as the
early revision, but on the non-error paths `dirtyRooms.add(roomId)` runs
after hydration; the catch branch does not mark the room dirty. -/
def loadRoomFromFirestore2 (r : String) (res : LoadResult) (s : ServerState) : ServerState :=
  match res with
  | .found doc =>
      { s with boards := alSet r doc.hydrate s.boards, dirty := addDirty r s.dirty }
  | .absent =>
      { s with boards := alSet r [] s.boards, dirty := addDirty r s.dirty }
  | .error => { s with boards := alSet r [] s.boards }

/-- `socket.on("join-room")` (dirty-set revision, lines 349-361): same
shape as the early revision, calling the dirty-marking load. -/
def onJoinRoom2 (sender r : String) (res : LoadResult) (s : ServerState) :
    ServerState × List Output :=
  match alGet r s.boards with
  | some l => (s, [.initBoard sender l])
  | none =>
      let s' := loadRoomFromFirestore2 r res s
      (s', [.initBoard sender ((alGet r s'.boards).getD [])])

/-- `socket.on("draw")` (dirty-set revision, lines 364-377): push the
stroke, `dirtyRooms.add(roomId)`, broadcast to the room except sender. -/
def onDraw2 (sender : String) (d : DrawData) (s : ServerState) :
    ServerState × List Output :=
  let cur := (alGet d.roomId s.boards).getD []
  ({ s with boards := alSet d.roomId (cur ++ [d.stroke]) s.boards,
            dirty := addDirty d.roomId s.dirty },
   [.drawBroadcast d.roomId sender d.stroke])

/-- Inbound events handled by the dirty-set server revision. -/
inductive Event2 where
  | join (sender roomId : String) (res : LoadResult)
  | draw (sender : String) (d : DrawData)
deriving Repr, DecidableEq

/-- Dispatch of one inbound event (dirty-set revision). -/
def step2 : Event2 → ServerState → ServerState × List Output
  | .join c r res, s => onJoinRoom2 c r res s
  | .draw c d, s => onDraw2 c d s

/-- Run a sequence of inbound events (dirty-set revision). -/
def run2 : List Event2 → ServerState → ServerState × List Output
  | [], s => (s, [])
  | e :: t, s =>
      ((run2 t (step2 e s).1).1, (step2 e s).2 ++ (run2 t (step2 e s).1).2)

/-- The synchronous part of a flush cycle already performed when the
writes go in flight: the room ids listed by `Array.from(dirtyRooms)` and
the write payloads `{ updatedAt: Date.now(), strokes: boards[roomId] || [] }`,
both captured before the `await`. -/
structure FlushInFlight where
  snapshot : List String
  writes : List (String × RoomDoc)
deriving Repr, DecidableEq

/-- Start of `saveAllRoomsToFirestore` (dirty-set revision, lines
297-310): an empty dirty set skips the cycle (`none`); otherwise the
write batch is built synchronously from the current dirty set and the
current boards. -/
def flushStart (now : Nat) (s : ServerState) : Option FlushInFlight :=
  if s.dirty.isEmpty then none
  else some
    { snapshot := s.dirty,
      writes := s.dirty.map
        (fun r => (r, { updatedAt := now, strokes := some ((alGet r s.boards).getD []) })) }

/-- End of a fully successful cycle (lines 312-315): the batched writes
have landed and `dirtyRooms.clear()` empties the whole current set. -/
def flushEndSuccess (f : FlushInFlight) (s : ServerState) : ServerState :=
  { s with store := applyWrites f.writes s.store, dirty := [] }

/-- End of a failed cycle (lines 316-318): the catch branch only logs;
`dirtyRooms` is untouched. `landed` is whatever subset of the batch the
adapter committed before `Promise.all` rejected. -/
def flushEndFailure (landed : List (String × RoomDoc)) (s : ServerState) : ServerState :=
  { s with store := applyWrites landed s.store }

/-! ### Room Session Manager operations absent from `src/`

The clients under `src/` emit `clear-room` and listen for
`board-cleared`, `update-user-list` and `cursor-remove`, but neither
server revision under `src/server/server.js` registers a `clear-room`
handler or keeps `participants`/`cursors` maps (its `disconnect` handler
only logs). The full Room Session Manager described by the spec is not
under `src/`, so those operations are modelled from the spec below. -/

/-- An ephemeral cursor entry: last-known pointer position, color and
display name for one connection (spec section 3, `cursors`). -/
structure CursorInfo where
  x : Int
  y : Int
  color : String
  name : String
deriving Repr, DecidableEq

/-- Modelled from the spec: one resident room of the Room Session
Manager (spec section 3) — the stroke log plus the per-connection
`participants` and `cursors` maps, which are missing from the server
under `src/`. -/
structure Room where
  strokes : List Stroke
  participants : List (String × String)
  cursors : List (String × CursorInfo)
deriving Repr, DecidableEq

/-- A room created implicitly on first reference: everything empty. -/
def Room.empty : Room := ⟨[], [], []⟩

/-- Modelled from the spec: the Room Session Manager's state — the
resident room table, the connection-to-room bindings established by
join, and the dirty set. -/
structure ManagerState where
  rooms : List (String × Room)
  bindings : List (String × String)
  dirty : List String
deriving Repr, DecidableEq

/-- The resident room for an id, an implicitly created empty room when
unknown (spec section 4.1: unknown room ids create the room lazily). -/
def roomOf (r : String) (s : ManagerState) : Room :=
  (alGet r s.rooms).getD Room.empty

/-- Payloads of the manager's outbound events relevant to clear and
disconnect. -/
inductive MEvent where
  | boardCleared
  | userList (names : List String)
  | cursorRemoveEv (conn : String)
deriving Repr, DecidableEq

/-- Manager effects: a per-connection delivery (a room broadcast resolved
to each connection in its audience) or an eager durable-write request. -/
inductive MOut where
  | deliver (target : String) (ev : MEvent)
  | storeWrite (roomId : String) (strokes : List Stroke)
deriving Repr, DecidableEq

/-- Modelled from the spec: the `clear-room` handler, which no server
revision under `src/` implements (spec section 4.1): "resets `strokes`
to empty, marks dirty, and broadcasts a clear signal to *all* connections
including the requester", and "must also eagerly request a store write
for the emptied room rather than waiting for the next scheduled flush". -/
def clearRoom (c r : String) (s : ManagerState) : ManagerState × List MOut :=
  let room := roomOf r s
  let room' := { room with strokes := [] }
  ({ s with rooms := alSet r room' s.rooms, dirty := addDirty r s.dirty },
   room.participants.map (fun p => MOut.deliver p.1 MEvent.boardCleared)
     ++ [MOut.storeWrite r []])

/-- Modelled from the spec: the `disconnect` handler, which under `src/`
only logs (spec section 4.1): "removes the connection from whatever room
it was bound to, removes its entry from `participants` and `cursors`, and
broadcasts the updated participant list and a cursor-removal signal for
that connectionId to the remaining room members. Idempotent: disconnecting
a connection with no bound room is a no-op." -/
def onDisconnect (c : String) (s : ManagerState) : ManagerState × List MOut :=
  match alGet c s.bindings with
  | none => (s, [])
  | some r =>
      let room := roomOf r s
      let room' := { room with participants := alRemove c room.participants,
                               cursors := alRemove c room.cursors }
      ({ s with rooms := alSet r room' s.rooms,
                bindings := alRemove c s.bindings },
       room'.participants.map
           (fun p => MOut.deliver p.1 (MEvent.userList (room'.participants.map Prod.snd)))
         ++ room'.participants.map (fun p => MOut.deliver p.1 (MEvent.cursorRemoveEv c)))

/-! ### Client-side coordinate capture (`CanvasBoard.tsx` lines 100-125) -/

/-- The fields of a browser mouse event the handler reads. -/
structure MouseEvent where
  clientX : Int
  clientY : Int
deriving Repr, DecidableEq

/-- The canvas bounding rectangle (`canvas.getBoundingClientRect()`). -/
structure Rect where
  left : Int
  top : Int
deriving Repr, DecidableEq

/-- `handleMouseMove` in `src/client/src/components/CanvasBoard.tsx`
(lines 100-125): the point is `(clientX - rect.left, clientY - rect.top)`
and the emitted `draw` payload carries the previous and current points
verbatim, with the current color and size. -/
def handleMouseMoveEmit (roomId : String) (prevPos : Int × Int) (e : MouseEvent)
    (rect : Rect) (color : String) (size : Int) : DrawData :=
  let x := e.clientX - rect.left
  let y := e.clientY - rect.top
  ⟨roomId, prevPos.1, prevPos.2, x, y, color, size⟩

/-! ## Basic lemmas about the embedding -/

theorem stroke_ofStroke (r : String) (st : Stroke) :
    (DrawData.ofStroke r st).stroke = st := rfl

theorem roomId_ofStroke (r : String) (st : Stroke) :
    (DrawData.ofStroke r st).roomId = r := rfl

theorem alGet_alSet_self {β : Type} (k : String) (v : β) (l : List (String × β)) :
    alGet k (alSet k v l) = some v := by
  induction l with
  | nil => simp [alGet, alSet]
  | cons hd t ih =>
    obtain ⟨k', w⟩ := hd
    by_cases hk : k' = k
    · subst hk; simp [alGet, alSet]
    · simp [alGet, alSet, hk, ih]

theorem alGet_alSet_ne {β : Type} {j k : String} (h : k ≠ j) (v : β)
    (l : List (String × β)) : alGet j (alSet k v l) = alGet j l := by
  induction l with
  | nil => simp [alGet, alSet, h]
  | cons hd t ih =>
    obtain ⟨k', w⟩ := hd
    by_cases hk : k' = k
    · subst hk; simp [alGet, alSet, h]
    · simp [alGet, alSet, hk, ih]

theorem alGet_alRemove_self {β : Type} (c : String) (l : List (String × β)) :
    alGet c (alRemove c l) = none := by
  induction l with
  | nil => rfl
  | cons hd t ih =>
    obtain ⟨k, v⟩ := hd
    by_cases hk : k = c
    · subst hk; simpa [alRemove, List.filter_cons] using ih
    · simpa [alRemove, List.filter_cons, hk, alGet] using ih

theorem nodup_keys_alRemove {β : Type} (c : String) (l : List (String × β))
    (h : (l.map Prod.fst).Nodup) : ((alRemove c l).map Prod.fst).Nodup := by
  have hs : List.Sublist ((alRemove c l).map Prod.fst) (l.map Prod.fst) :=
    (List.filter_sublist l).map Prod.fst
  exact h.sublist hs

theorem self_mem_addDirty (r : String) (d : List String) : r ∈ addDirty r d := by
  unfold addDirty; split
  · assumption
  · exact List.mem_append_right _ (List.mem_singleton.mpr rfl)

theorem mem_addDirty_of_mem {x : String} (r : String) {d : List String}
    (h : x ∈ d) : x ∈ addDirty r d := by
  unfold addDirty; split
  · exact h
  · exact List.mem_append_left _ h

theorem dirty_mono_step2 (e : Event2) (s : ServerState) {x : String}
    (h : x ∈ s.dirty) : x ∈ ((step2 e s).1).dirty := by
  cases e with
  | join c r res =>
    simp only [step2, onJoinRoom2]
    cases halGet : alGet r s.boards with
    | some l => simpa using h
    | none =>
      cases res <;> simp only [loadRoomFromFirestore2] <;>
        first
          | exact mem_addDirty_of_mem _ h
          | exact h
  | draw c d =>
    simp only [step2, onDraw2]
    exact mem_addDirty_of_mem _ h

theorem dirty_mono_run2 (evs : List Event2) (s : ServerState) {x : String}
    (h : x ∈ s.dirty) : x ∈ ((run2 evs s).1).dirty := by
  induction evs generalizing s with
  | nil => simpa [run2] using h
  | cons e t ih => exact ih _ (dirty_mono_step2 e s h)

theorem alGet_applyWrites_not_mem (ws st : List (String × RoomDoc)) (R : String)
    (h : R ∉ ws.map Prod.fst) : alGet R (applyWrites ws st) = alGet R st := by
  induction ws generalizing st with
  | nil => rfl
  | cons hd t ih =>
    obtain ⟨k, d⟩ := hd
    simp only [List.map_cons, List.mem_cons] at h
    push_neg at h
    simp only [applyWrites]
    rw [ih _ h.2, alGet_alSet_ne (fun hk => h.1 hk.symm)]

theorem writesOf_keys (now : Nat) (b : List (String × List Stroke)) :
    (writesOf now b).map Prod.fst = b.map Prod.fst := by
  simp [writesOf, List.map_map, Function.comp]

theorem alGet_applyWrites_writesOf (now : Nat) (b : List (String × List Stroke))
    (st : List (String × RoomDoc)) (R : String) (v : List Stroke)
    (hnd : (b.map Prod.fst).Nodup) (h : alGet R b = some v) :
    alGet R (applyWrites (writesOf now b) st)
      = some { updatedAt := now, strokes := some v } := by
  induction b generalizing st with
  | nil => simp [alGet] at h
  | cons hd t ih =>
    obtain ⟨k, w⟩ := hd
    obtain ⟨hk, hnt⟩ : k ∉ t.map Prod.fst ∧ (t.map Prod.fst).Nodup := by
      simpa only [List.map_cons, List.nodup_cons] using hnd
    show alGet R (applyWrites (writesOf now t)
        (alSet k { updatedAt := now, strokes := some w } st)) = _
    by_cases hkR : k = R
    · have hw : w = v := by simpa [alGet, hkR] using h
      have hmem : R ∉ (writesOf now t).map Prod.fst := by
        rw [writesOf_keys]; exact hkR ▸ hk
      rw [alGet_applyWrites_not_mem _ _ _ hmem]
      simp [hkR, hw, alGet_alSet_self]
    · have ht : alGet R t = some v := by simpa [alGet, hkR] using h
      exact ih _ hnt ht

theorem run_draws_strokes (R : String) (ds : List (String × Stroke))
    (s : ServerState) (l : List Stroke) (h : alGet R s.boards = some l) :
    alGet R ((run (ds.map fun p => Event.draw p.1 (DrawData.ofStroke R p.2)) s).1).boards
      = some (l ++ ds.map Prod.snd) := by
  induction ds generalizing s l with
  | nil => simpa [run] using h
  | cons hd t ih =>
    simp only [List.map_cons, run, step, onDraw]
    rw [ih _ (l ++ [hd.2]) (by simp [roomId_ofStroke, stroke_ofStroke, h, alGet_alSet_self])]
    simp

theorem count_deliver_eq_one (l : List (String × String)) (p : String) (ev : MEvent)
    (hnd : (l.map Prod.fst).Nodup) (hp : p ∈ l.map Prod.fst) :
    (l.map (fun q => MOut.deliver q.1 ev)).count (MOut.deliver p ev) = 1 := by
  induction l with
  | nil => simp at hp
  | cons hd t ih =>
    obtain ⟨k, n⟩ := hd
    obtain ⟨hk, hnt⟩ : k ∉ t.map Prod.fst ∧ (t.map Prod.fst).Nodup := by
      simpa only [List.map_cons, List.nodup_cons] using hnd
    by_cases hkp : k = p
    · subst hkp
      have hzero : (t.map (fun q => MOut.deliver q.1 ev)).count (MOut.deliver k ev) = 0 := by
        rw [List.count_eq_zero]
        intro hmem
        obtain ⟨q, hq, heq⟩ := List.mem_map.mp hmem
        cases heq
        exact hk (List.mem_map.mpr ⟨q, hq, rfl⟩)
      simp [List.count_cons, hzero]
    · have hp' : p ∈ t.map Prod.fst := by
        rcases List.mem_cons.mp (by simpa only [List.map_cons] using hp) with h | h
        · exact absurd h.symm hkp
        · exact h
      have hne : MOut.deliver k ev ≠ MOut.deliver p ev := by
        intro heq; cases heq; exact hkp rfl
      simp [List.count_cons, hne, ih hnt hp']

theorem count_deliver_ne_ev (l : List (String × String)) (p : String) (ev ev' : MEvent)
    (h : ev' ≠ ev) :
    (l.map (fun q => MOut.deliver q.1 ev)).count (MOut.deliver p ev') = 0 := by
  rw [List.count_eq_zero]
  intro hmem
  obtain ⟨q, _, heq⟩ := List.mem_map.mp hmem
  cases heq
  exact h rfl

/-! ## The claims -/

/-- Claim C1: for every room R whose in-memory stroke sequence starts out
empty (or not yet resident) and every sequence of N `draw` events
delivered to the manager for R from any connections, R's `strokes`
afterwards is exactly the N submitted strokes in arrival order: each draw
appends exactly one stroke, none is lost, none is deduplicated. -/
theorem c1_draw_appends (R : String) (ds : List (String × Stroke)) (s : ServerState)
    (h : (alGet R s.boards).getD [] = []) :
    (alGet R ((run (ds.map fun p => Event.draw p.1 (DrawData.ofStroke R p.2)) s).1).boards).getD []
        = ds.map Prod.snd
    ∧ (ds ≠ [] →
        alGet R ((run (ds.map fun p => Event.draw p.1 (DrawData.ofStroke R p.2)) s).1).boards
          = some (ds.map Prod.snd))
    ∧ (ds.map Prod.snd).length = ds.length := by
  cases ds with
  | nil => simp [run, h]
  | cons hd t =>
    have h1 : alGet R ((step (Event.draw hd.1 (DrawData.ofStroke R hd.2)) s).1).boards
        = some [hd.2] := by
      simp [step, onDraw, roomId_ofStroke, stroke_ofStroke, h, alGet_alSet_self]
    have h2 := run_draws_strokes R t
      ((step (Event.draw hd.1 (DrawData.ofStroke R hd.2)) s).1) [hd.2] h1
    refine ⟨?_, fun _ => ?_, by simp⟩
    · simp only [List.map_cons, run]
      rw [h2]; simp
    · simp only [List.map_cons, run]
      rw [h2]; simp

theorem c1_draw_appends_witness :
    ((alGet "demo" (coldState []).boards).getD [] = []) ∧
    (alGet "demo" ((run ((([("A", ⟨0, 0, 1, 1, "#000000", 3⟩),
          ("B", ⟨0, 0, 1, 1, "#000000", 3⟩)]) : List (String × Stroke)).map
          fun p => Event.draw p.1 (DrawData.ofStroke "demo" p.2)) (coldState [])).1).boards).getD []
      = [⟨0, 0, 1, 1, "#000000", 3⟩, ⟨0, 0, 1, 1, "#000000", 3⟩] :=
  ⟨rfl, (c1_draw_appends "demo"
    [("A", ⟨0, 0, 1, 1, "#000000", 3⟩), ("B", ⟨0, 0, 1, 1, "#000000", 3⟩)]
    (coldState []) rfl).1⟩

/-- Claim C2: every `join-room` makes the manager send the joining
connection a single `init-board` event whose payload is the room's whole
ordered stroke sequence as of the join; the payload is one event carrying
the full sequence, and no event processed after the join changes what
that first output was. -/
theorem c2_init_board_single (c R : String) (res : LoadResult) (s : ServerState)
    (rest : List Event) :
    ∃ p, (step (Event.join c R res) s).2 = [Output.initBoard c p] ∧
      alGet R ((step (Event.join c R res) s).1).boards = some p ∧
      (run (Event.join c R res :: rest) s).2.head? = some (Output.initBoard c p) := by
  have key : ∃ p, (step (Event.join c R res) s).2 = [Output.initBoard c p] ∧
      alGet R ((step (Event.join c R res) s).1).boards = some p := by
    cases halGet : alGet R s.boards with
    | some l =>
        exact ⟨l, by simp [step, onJoinRoom, halGet], by simp [step, onJoinRoom, halGet]⟩
    | none =>
        cases res with
        | found doc =>
            refine ⟨doc.hydrate, ?_, ?_⟩ <;>
              simp [step, onJoinRoom, halGet, loadRoomFromFirestore, alGet_alSet_self]
        | absent =>
            refine ⟨[], ?_, ?_⟩ <;>
              simp [step, onJoinRoom, halGet, loadRoomFromFirestore, alGet_alSet_self]
        | error =>
            refine ⟨[], ?_, ?_⟩ <;>
              simp [step, onJoinRoom, halGet, loadRoomFromFirestore, alGet_alSet_self]
  obtain ⟨p, h1, h2⟩ := key
  refine ⟨p, h1, h2, ?_⟩
  simp only [run, h1, List.singleton_append, List.head?_cons]

/-- Claim C6: a Durable Store Adapter error during `load` is caught and
treated exactly as an absent document — the room hydrates with empty
`strokes`, the triggering join completes normally, and the only output
sent to the joining client is a normal `init-board`. -/
theorem c6_load_error_hydrates_empty (c R : String) (s : ServerState)
    (h : alGet R s.boards = none) :
    loadRoomFromFirestore R .error s = loadRoomFromFirestore R .absent s ∧
    alGet R (loadRoomFromFirestore R .error s).boards = some [] ∧
    step (Event.join c R .error) s
      = ({ s with boards := alSet R [] s.boards }, [Output.initBoard c []]) := by
  refine ⟨rfl, ?_, ?_⟩
  · simp [loadRoomFromFirestore, alGet_alSet_self]
  · simp [step, onJoinRoom, h, loadRoomFromFirestore, alGet_alSet_self]

theorem c6_load_error_hydrates_empty_witness :
    (alGet "demo" (coldState []).boards = none) ∧
    alGet "demo" (loadRoomFromFirestore "demo" .error (coldState [])).boards = some [] :=
  ⟨rfl, (c6_load_error_hydrates_empty "conn" "demo" (coldState []) rfl).2.1⟩

/-- Claim C9: persisting a room whose `strokes` is empty and then loading
that room from a cold process yields a present store document that
hydrates to an empty `strokes` sequence, not an absent room. -/
theorem c9_empty_round_trip (R : String) (now : Nat) (s : ServerState)
    (hnd : (s.boards.map Prod.fst).Nodup) (h : alGet R s.boards = some []) :
    alGet R (saveAllRoomsToFirestore now s).store
        = some { updatedAt := now, strokes := some [] } ∧
    storeGet R (saveAllRoomsToFirestore now s).store
        = .found { updatedAt := now, strokes := some [] } ∧
    alGet R ((loadRoomFromFirestore R
        (storeGet R (saveAllRoomsToFirestore now s).store)
        (coldState (saveAllRoomsToFirestore now s).store)).boards) = some [] := by
  have hget : alGet R (saveAllRoomsToFirestore now s).store
      = some { updatedAt := now, strokes := some [] } :=
    alGet_applyWrites_writesOf now s.boards s.store R [] hnd h
  refine ⟨hget, ?_, ?_⟩
  · simp [storeGet, hget]
  · simp [storeGet, hget, loadRoomFromFirestore, RoomDoc.hydrate, alGet_alSet_self]

theorem c9_empty_round_trip_witness :
    ((([("demo", ([] : List Stroke))] : List (String × List Stroke)).map Prod.fst).Nodup ∧
      alGet "demo" ([("demo", [])] : List (String × List Stroke)) = some []) ∧
    alGet "demo" ((loadRoomFromFirestore "demo"
        (storeGet "demo" (saveAllRoomsToFirestore 7 ⟨[("demo", [])], [], []⟩).store)
        (coldState (saveAllRoomsToFirestore 7 ⟨[("demo", [])], [], []⟩).store)).boards)
      = some [] :=
  ⟨⟨by simp, rfl⟩,
    (c9_empty_round_trip "demo" 7 ⟨[("demo", [])], [], []⟩ (by simp) rfl).2.2⟩

/-- Claim C10: a `join-room` for a room already resident in the in-memory
table performs no durable-store read (the handler's result does not
depend on the adapter at all) and leaves the whole server state
unchanged; its only effect is emitting one `init-board` to the joining
connection. -/
theorem c10_resident_join_frame (c R : String) (res res' : LoadResult) (s : ServerState)
    (l : List Stroke) (h : alGet R s.boards = some l) :
    step (Event.join c R res) s = (s, [Output.initBoard c l]) ∧
    step (Event.join c R res) s = step (Event.join c R res') s := by
  constructor <;> simp [step, onJoinRoom, h]

theorem c10_resident_join_frame_witness :
    (alGet "demo" (⟨[("demo", [⟨0, 0, 1, 1, "#000000", 3⟩])], [], []⟩ : ServerState).boards
        = some [⟨0, 0, 1, 1, "#000000", 3⟩]) ∧
    step (Event.join "conn" "demo" .error)
        (⟨[("demo", [⟨0, 0, 1, 1, "#000000", 3⟩])], [], []⟩ : ServerState)
      = (⟨[("demo", [⟨0, 0, 1, 1, "#000000", 3⟩])], [], []⟩,
         [Output.initBoard "conn" [⟨0, 0, 1, 1, "#000000", 3⟩]]) :=
  ⟨rfl, (c10_resident_join_frame "conn" "demo" .error .absent
    ⟨[("demo", [⟨0, 0, 1, 1, "#000000", 3⟩])], [], []⟩ [⟨0, 0, 1, 1, "#000000", 3⟩]
    (by decide)).1⟩

/-- Claim C3 counterexample: the claim says a room marked dirty while the
flush's writes are in flight is still dirty after a successful flush.
In the code the success path runs `dirtyRooms.clear()`: starting from a
state with dirty room "A", a flush begins (snapshot ["A"]), a `draw` for
room "B" arrives in flight (dirty set becomes ["A", "B"] with "B" outside
the snapshot), and the successful completion leaves "B" no longer dirty. -/
theorem c3_counterexample :
    flushStart 100 (⟨[("A", [⟨0, 0, 1, 1, "#000000", 3⟩])], ["A"], []⟩ : ServerState)
        = some ⟨["A"], [("A", ⟨100, some [⟨0, 0, 1, 1, "#000000", 3⟩]⟩)]⟩ ∧
    "B" ∉ (⟨["A"], [("A", ⟨100, some [⟨0, 0, 1, 1, "#000000", 3⟩]⟩)]⟩ : FlushInFlight).snapshot ∧
    "B" ∈ ((run2 [Event2.draw "conn" (DrawData.ofStroke "B" ⟨1, 1, 2, 2, "#ff0000", 3⟩)]
        (⟨[("A", [⟨0, 0, 1, 1, "#000000", 3⟩])], ["A"], []⟩ : ServerState)).1).dirty ∧
    "B" ∉ (flushEndSuccess ⟨["A"], [("A", ⟨100, some [⟨0, 0, 1, 1, "#000000", 3⟩]⟩)]⟩
        ((run2 [Event2.draw "conn" (DrawData.ofStroke "B" ⟨1, 1, 2, 2, "#ff0000", 3⟩)]
          (⟨[("A", [⟨0, 0, 1, 1, "#000000", 3⟩])], ["A"], []⟩ : ServerState)).1)).dirty := by
  decide

/-- Claim C3 as amended: the flush snapshot is indeed taken at flush
start and determines the writes, but on full success the code clears the
*entire* dirty set current at completion (`dirtyRooms.clear()`), not just
the snapshotted ids — a room marked dirty while the writes were in flight
is removed as well and is not retried. -/
theorem c3_success_clears_all (now : Nat) (s0 : ServerState) (f : FlushInFlight)
    (evs : List Event2) (hf : flushStart now s0 = some f) :
    f.snapshot = s0.dirty ∧
    (flushEndSuccess f (run2 evs s0).1).dirty = [] ∧
    (flushEndSuccess f (run2 evs s0).1).store
      = applyWrites f.writes (run2 evs s0).1.store := by
  refine ⟨?_, rfl, rfl⟩
  unfold flushStart at hf
  split at hf
  · cases hf
  · cases hf
    rfl

theorem c3_success_clears_all_witness :
    (flushStart 100 (⟨[("A", [⟨0, 0, 1, 1, "#000000", 3⟩])], ["A"], []⟩ : ServerState)
        = some ⟨["A"], [("A", ⟨100, some [⟨0, 0, 1, 1, "#000000", 3⟩]⟩)]⟩) ∧
    (⟨["A"], [("A", ⟨100, some [⟨0, 0, 1, 1, "#000000", 3⟩]⟩)]⟩ : FlushInFlight).snapshot
        = (⟨[("A", [⟨0, 0, 1, 1, "#000000", 3⟩])], ["A"], []⟩ : ServerState).dirty ∧
    (flushEndSuccess ⟨["A"], [("A", ⟨100, some [⟨0, 0, 1, 1, "#000000", 3⟩]⟩)]⟩
        ((run2 [] (⟨[("A", [⟨0, 0, 1, 1, "#000000", 3⟩])], ["A"], []⟩ : ServerState)).1)).dirty
      = [] :=
  ⟨by decide,
    (c3_success_clears_all 100 ⟨[("A", [⟨0, 0, 1, 1, "#000000", 3⟩])], ["A"], []⟩
      ⟨["A"], [("A", ⟨100, some [⟨0, 0, 1, 1, "#000000", 3⟩]⟩)]⟩ [] (by decide)).1,
    (c3_success_clears_all 100 ⟨[("A", [⟨0, 0, 1, 1, "#000000", 3⟩])], ["A"], []⟩
      ⟨["A"], [("A", ⟨100, some [⟨0, 0, 1, 1, "#000000", 3⟩]⟩)]⟩ [] (by decide)).2.1⟩

/-- Claim C4: when any durable write of a flush cycle fails, the catch
branch leaves the dirty set exactly as it stands (no room id is removed,
whatever subset of writes landed), and every room dirty at flush start is
still dirty afterwards, so the next cycle retries it. -/
theorem c4_failed_flush_keeps_dirty (landed : List (String × RoomDoc))
    (evs : List Event2) (s0 : ServerState) (r : String) (hr : r ∈ s0.dirty) :
    (flushEndFailure landed (run2 evs s0).1).dirty = (run2 evs s0).1.dirty ∧
    r ∈ (flushEndFailure landed (run2 evs s0).1).dirty :=
  ⟨rfl, dirty_mono_run2 evs s0 hr⟩

theorem c4_failed_flush_keeps_dirty_witness :
    ("A" ∈ (⟨[("A", [])], ["A"], []⟩ : ServerState).dirty) ∧
    "A" ∈ (flushEndFailure []
        ((run2 [Event2.draw "conn" (DrawData.ofStroke "B" ⟨0, 0, 1, 1, "#000000", 3⟩)]
          (⟨[("A", [])], ["A"], []⟩ : ServerState)).1)).dirty :=
  ⟨by decide,
    (c4_failed_flush_keeps_dirty []
      [Event2.draw "conn" (DrawData.ofStroke "B" ⟨0, 0, 1, 1, "#000000", 3⟩)]
      ⟨[("A", [])], ["A"], []⟩ "A" (by decide)).2⟩

/-- Claim C5 (handler modelled from the spec; no server revision under
`src/` registers `clear-room`): a `clear-room` on room R resets R's
`strokes` to the empty sequence, marks R dirty, delivers exactly one
`board-cleared` to every connection in R (hence also to the requester
whenever the requester is a participant), and eagerly requests a durable
store write of the emptied room. -/
theorem c5_clear_room (c r : String) (s : ManagerState) (p : String)
    (hnd : ((roomOf r s).participants.map Prod.fst).Nodup)
    (hp : p ∈ (roomOf r s).participants.map Prod.fst) :
    (roomOf r (clearRoom c r s).1).strokes = [] ∧
    r ∈ (clearRoom c r s).1.dirty ∧
    ((clearRoom c r s).2.count (MOut.deliver p MEvent.boardCleared)) = 1 ∧
    MOut.storeWrite r [] ∈ (clearRoom c r s).2 := by
  refine ⟨?_, ?_, ?_, ?_⟩
  · simp [clearRoom, roomOf, alGet_alSet_self]
  · exact self_mem_addDirty r s.dirty
  · show ((roomOf r s).participants.map (fun q => MOut.deliver q.1 MEvent.boardCleared)
        ++ [MOut.storeWrite r []]).count (MOut.deliver p MEvent.boardCleared) = 1
    rw [List.count_append, count_deliver_eq_one _ _ _ hnd hp]
    simp
  · exact List.mem_append_right _ (List.mem_singleton.mpr rfl)

theorem c5_clear_room_witness :
    (((roomOf "demo" (⟨[("demo", ⟨[⟨0, 0, 1, 1, "#000000", 3⟩],
          [("A", "Alice"), ("B", "Bob")], []⟩)], [], []⟩ : ManagerState)).participants.map
        Prod.fst).Nodup ∧
      "A" ∈ (roomOf "demo" (⟨[("demo", ⟨[⟨0, 0, 1, 1, "#000000", 3⟩],
          [("A", "Alice"), ("B", "Bob")], []⟩)], [], []⟩ : ManagerState)).participants.map
        Prod.fst) ∧
    ((clearRoom "A" "demo" (⟨[("demo", ⟨[⟨0, 0, 1, 1, "#000000", 3⟩],
        [("A", "Alice"), ("B", "Bob")], []⟩)], [], []⟩ : ManagerState)).2.count
      (MOut.deliver "A" MEvent.boardCleared)) = 1 :=
  ⟨⟨by decide, by decide⟩,
    (c5_clear_room "A" "demo" ⟨[("demo", ⟨[⟨0, 0, 1, 1, "#000000", 3⟩],
      [("A", "Alice"), ("B", "Bob")], []⟩)], [], []⟩ "A" (by decide) (by decide)).2.2.1⟩

/-- Claim C7 (handler modelled from the spec; the `disconnect` handler
under `src/` only logs): disconnecting connection C removes C from the
`participants` and `cursors` of the room C was bound to and from the
bindings, every remaining participant receives exactly one
`update-user-list` reflecting C's absence and exactly one `cursor-remove`
for C, and disconnecting a connection with no bound room is a no-op. -/
theorem c7_disconnect_cleanup (c r : String) (s : ManagerState) :
    (alGet c s.bindings = none → onDisconnect c s = (s, [])) ∧
    (alGet c s.bindings = some r →
      alGet c (roomOf r (onDisconnect c s).1).participants = none ∧
      alGet c (roomOf r (onDisconnect c s).1).cursors = none ∧
      alGet c (onDisconnect c s).1.bindings = none ∧
      (((roomOf r s).participants.map Prod.fst).Nodup →
        ∀ p ∈ (alRemove c (roomOf r s).participants).map Prod.fst,
          ((onDisconnect c s).2.count
            (MOut.deliver p
              (MEvent.userList ((alRemove c (roomOf r s).participants).map Prod.snd)))) = 1 ∧
          ((onDisconnect c s).2.count (MOut.deliver p (MEvent.cursorRemoveEv c))) = 1)) := by
  constructor
  · intro h
    simp [onDisconnect, h]
  · intro hb
    have hst : (onDisconnect c s).1
        = { s with
              rooms := alSet r
                ({ roomOf r s with
                    participants := alRemove c (roomOf r s).participants,
                    cursors := alRemove c (roomOf r s).cursors }) s.rooms,
              bindings := alRemove c s.bindings } := by
      simp [onDisconnect, hb]
    have houts : (onDisconnect c s).2
        = (alRemove c (roomOf r s).participants).map
            (fun q => MOut.deliver q.1
              (MEvent.userList ((alRemove c (roomOf r s).participants).map Prod.snd)))
          ++ (alRemove c (roomOf r s).participants).map
            (fun q => MOut.deliver q.1 (MEvent.cursorRemoveEv c)) := by
      simp [onDisconnect, hb]
    refine ⟨?_, ?_, ?_, ?_⟩
    · rw [hst]
      simp [roomOf, alGet_alSet_self, alGet_alRemove_self]
    · rw [hst]
      simp [roomOf, alGet_alSet_self, alGet_alRemove_self]
    · rw [hst]
      simp [alGet_alRemove_self]
    · intro hnd p hp
      have hnd' := nodup_keys_alRemove c _ hnd
      constructor
      · rw [houts, List.count_append, count_deliver_eq_one _ _ _ hnd' hp,
            count_deliver_ne_ev _ _ _ _ (by intro h; cases h)]
      · rw [houts, List.count_append, count_deliver_eq_one _ _ _ hnd' hp,
            count_deliver_ne_ev _ _ _ _ (by intro h; cases h)]

theorem c7_disconnect_cleanup_witness :
    (alGet "A" (⟨[("demo", ⟨[], [("A", "Alice"), ("B", "Bob")],
          [("A", ⟨1, 2, "#000000", "Alice"⟩)]⟩)], [("A", "demo")], []⟩ :
        ManagerState).bindings = some "demo") ∧
    alGet "A" (roomOf "demo" (onDisconnect "A"
        (⟨[("demo", ⟨[], [("A", "Alice"), ("B", "Bob")],
          [("A", ⟨1, 2, "#000000", "Alice"⟩)]⟩)], [("A", "demo")], []⟩ :
        ManagerState)).1).participants = none ∧
    ((onDisconnect "A" (⟨[("demo", ⟨[], [("A", "Alice"), ("B", "Bob")],
        [("A", ⟨1, 2, "#000000", "Alice"⟩)]⟩)], [("A", "demo")], []⟩ :
      ManagerState)).2.count (MOut.deliver "B" (MEvent.cursorRemoveEv "A"))) = 1 :=
  ⟨by decide,
    ((c7_disconnect_cleanup "A" "demo" ⟨[("demo", ⟨[], [("A", "Alice"), ("B", "Bob")],
        [("A", ⟨1, 2, "#000000", "Alice"⟩)]⟩)], [("A", "demo")], []⟩).2 (by decide)).1,
    (((c7_disconnect_cleanup "A" "demo" ⟨[("demo", ⟨[], [("A", "Alice"), ("B", "Bob")],
        [("A", ⟨1, 2, "#000000", "Alice"⟩)]⟩)], [("A", "demo")], []⟩).2
      (by decide)).2.2.2 (by decide) "B" (by decide)).2⟩

/-- Claim C8 counterexample: the claim says every stored or broadcast
stroke has coordinates that are fractions in 0.0-1.0 of the client's
surface size. The client's `handleMouseMove` emits raw pixel offsets
(`clientX - rect.left`): a mouse move to client x 500 on a canvas whose
bounding rect starts at 0 produces a stroke whose stored and broadcast
end point is 500, far outside 0-1. -/
theorem c8_counterexample :
    alGet "demo" ((step (Event.draw "A"
        (handleMouseMoveEmit "demo" (0, 0) ⟨500, 300⟩ ⟨0, 0⟩ "#000000" 3))
        (coldState [])).1).boards
      = some [(handleMouseMoveEmit "demo" (0, 0) ⟨500, 300⟩ ⟨0, 0⟩ "#000000" 3).stroke] ∧
    (step (Event.draw "A"
        (handleMouseMoveEmit "demo" (0, 0) ⟨500, 300⟩ ⟨0, 0⟩ "#000000" 3))
        (coldState [])).2
      = [Output.drawBroadcast "demo" "A"
          (handleMouseMoveEmit "demo" (0, 0) ⟨500, 300⟩ ⟨0, 0⟩ "#000000" 3).stroke] ∧
    (handleMouseMoveEmit "demo" (0, 0) ⟨500, 300⟩ ⟨0, 0⟩ "#000000" 3).stroke.x1 = 500 ∧
    ¬(0 ≤ (handleMouseMoveEmit "demo" (0, 0) ⟨500, 300⟩ ⟨0, 0⟩ "#000000" 3).stroke.x1 ∧
        (handleMouseMoveEmit "demo" (0, 0) ⟨500, 300⟩ ⟨0, 0⟩ "#000000" 3).stroke.x1 ≤ 1) := by
  decide

/-- Claim C8 as amended: stroke point coordinates are raw pixel offsets
of the mouse position relative to the canvas bounding rectangle
(`clientX - rect.left`, `clientY - rect.top`), not normalized fractions;
they are consistent across participants only because every client uses
the same fixed canvas size. -/
theorem c8_raw_pixel_offsets (roomId : String) (prevPos : Int × Int) (e : MouseEvent)
    (rect : Rect) (color : String) (size : Int) :
    (handleMouseMoveEmit roomId prevPos e rect color size).stroke
      = ⟨prevPos.1, prevPos.2, e.clientX - rect.left, e.clientY - rect.top, color, size⟩ :=
  rfl

end DrawingApp
